import Mathlib

/-!
Verification of the client-side data-synchronization layer of the
youtube-notes browser client: the Entity Cache Store, the Query Execution
Unit (freshness, staleness, deduplication), the Mutation Execution Unit,
the Invalidation Coordinator, and the routing and route-parameter behavior
of the note-detail page. The cache core itself is provided by the query
library and is not under src/; those parts are modelled from the spec, as
marked on each definition. The router table, the note-detail page and its
delete handler are embedded from the source files.
-/

namespace YoutubeNotes

/-- Status of a cache entry: idle, loading, success or error. -/
inductive Status where
  | idle
  | loading
  | success
  | error
deriving DecidableEq, Repr

/-- Modelled from the spec: CacheEntry of section 3 (the Entity Cache
Store implementation lives in the query library, not under src/). Fields:
optional data, status, optional error, fetchedAt, staleAt, lastAccessAt
and subscriberCount; expiresAt is derived as lastAccessAt + gcTime.
Instants are naturals (milliseconds). -/
structure CacheEntry (T : Type) where
  data : Option T
  status : Status
  error : Option String
  fetchedAt : Nat
  staleAt : Nat
  lastAccessAt : Nat
  subscriberCount : Nat
deriving DecidableEq, Repr

/-- Modelled from the spec: a cache key is detail:i for a resource
identifier i, or a list-scope token list:s. -/
inductive Key where
  | detail (i : Int)
  | list (scope : String)
deriving DecidableEq, Repr

variable {T : Type}

/-- Modelled from the spec: expiresAt = lastAccessAt + gcTime. -/
def expiresAt (gcTime : Nat) (e : CacheEntry T) : Nat :=
  e.lastAccessAt + gcTime

/-- Modelled from the spec: an entry is created on first access to its key
with status idle and no data. -/
def newEntry (now : Nat) : CacheEntry T :=
  { data := none
    status := .idle
    error := none
    fetchedAt := now
    staleAt := now
    lastAccessAt := now
    subscriberCount := 0 }

/-- Modelled from the spec: put(key, data) sets status=success and the
data, and refreshes fetchedAt and staleAt (staleAt = fetchedAt +
staleTime). -/
def put (now staleTime : Nat) (d : T) (e : CacheEntry T) : CacheEntry T :=
  { e with
    data := some d
    status := .success
    fetchedAt := now
    staleAt := now + staleTime }

/-- Modelled from the spec: markError(key, error) sets status=error and
preserves any prior data (stale-while-error). -/
def markError (msg : String) (e : CacheEntry T) : CacheEntry T :=
  { e with status := .error, error := some msg }

/-- Modelled from the spec: markStale(key) forces staleAt = now without
clearing data. -/
def markStale (now : Nat) (e : CacheEntry T) : CacheEntry T :=
  { e with staleAt := now }

/-- Modelled from the spec: subscribe(key) increments subscriberCount. -/
def subscribeOp (e : CacheEntry T) : CacheEntry T :=
  { e with subscriberCount := e.subscriberCount + 1 }

/-- Modelled from the spec: unsubscribe(key) decrements subscriberCount
and refreshes lastAccessAt. -/
def unsubscribeOp (now : Nat) (e : CacheEntry T) : CacheEntry T :=
  { e with
    subscriberCount := e.subscriberCount - 1
    lastAccessAt := now }

/-- Modelled from the spec: an access before expiry refreshes
lastAccessAt, postponing removal. -/
def touch (now : Nat) (e : CacheEntry T) : CacheEntry T :=
  { e with lastAccessAt := now }

/-- Modelled from the spec: the store is an in-memory table mapping keys
to entries. -/
abbrev Store (T : Type) : Type := List (Key × CacheEntry T)

/-- Modelled from the spec: collectGarbage(now) removes every entry with
subscriberCount = 0 and now at or past expiresAt. -/
def collectGarbage (now gcTime : Nat) (store : Store T) : Store T :=
  store.filter fun p =>
    !(p.2.subscriberCount == 0 && decide (expiresAt gcTime p.2 ≤ now))

/-- Result a caller of query observes synchronously: either attached to
the in-flight fetch (resolution delivered later) or served the cached
data. -/
inductive QueryResult (T : Type) where
  | attached
  | served (d : Option T)
deriving DecidableEq

/-- Modelled from the spec: per-key state of the Query Execution Unit:
the cache entry if present, the number of in-flight fetches for this key,
the number of callers attached to the in-flight fetch, and the cumulative
number of network calls issued. -/
structure KeyState (T : Type) where
  entry : Option (CacheEntry T)
  inFlight : Nat
  waiters : Nat
  networkCalls : Nat
deriving DecidableEq

/-- Key state before first access: no entry, nothing in flight, no
network call issued. -/
def initKeyState (T : Type) : KeyState T := ⟨none, 0, 0, 0⟩

/-- Status of the key state (an absent entry behaves as idle). -/
def stateStatus (s : KeyState T) : Status :=
  match s.entry with
  | none => .idle
  | some e => e.status

/-- Modelled from the spec: query(key, fetchFn) of section 4.2. Absent or
idle entry: create or keep the entry, transition to loading, issue the
fetch and attach the caller. Loading: attach the caller to the single
in-flight request (deduplication), no new network call. Success and
fresh: serve the cached data, no network call. Success and stale, or
error: serve the cached data and issue one background revalidation,
transitioning to loading while retaining the data. -/
def queryStep (now : Nat) (s : KeyState T) : QueryResult T × KeyState T :=
  match s.entry with
  | none =>
    (.attached,
      { entry := some { newEntry now with status := .loading }
        inFlight := s.inFlight + 1
        waiters := s.waiters + 1
        networkCalls := s.networkCalls + 1 })
  | some e =>
    match e.status with
    | .idle =>
      (.attached,
        { entry := some { e with status := .loading }
          inFlight := s.inFlight + 1
          waiters := s.waiters + 1
          networkCalls := s.networkCalls + 1 })
    | .loading => (.attached, { s with waiters := s.waiters + 1 })
    | .success =>
      if now < e.staleAt then (.served e.data, s)
      else
        (.served e.data,
          { s with
            entry := some { e with status := .loading }
            inFlight := s.inFlight + 1
            networkCalls := s.networkCalls + 1 })
    | .error =>
      (.served e.data,
        { s with
          entry := some { e with status := .loading }
          inFlight := s.inFlight + 1
          networkCalls := s.networkCalls + 1 })

/-- Modelled from the spec: resolution of the in-flight fetch with a
value: put on the entry, and the same value is delivered to every
attached caller; a resolution with no fetch in flight is ignored. Returns
the new state and the list of values delivered to the attached
callers. -/
def resolveOk (now staleTime : Nat) (v : T) (s : KeyState T) :
    KeyState T × List T :=
  match s.entry with
  | some e =>
    match e.status with
    | .loading =>
      ({ s with
         entry := some (put now staleTime v e)
         inFlight := s.inFlight - 1
         waiters := 0 },
       List.replicate s.waiters v)
    | _ => (s, [])
  | none => (s, [])

/-- Modelled from the spec: resolution of the in-flight fetch with a
failure: markError on the entry; a resolution with no fetch in flight is
ignored. -/
def resolveErr (msg : String) (s : KeyState T) : KeyState T :=
  match s.entry with
  | some e =>
    match e.status with
    | .loading =>
      { s with
        entry := some (markError msg e)
        inFlight := s.inFlight - 1
        waiters := 0 }
    | _ => s
  | none => s

/-- Events touching one key of the Query Execution Unit and the store. -/
inductive Event (T : Type) where
  | query (now : Nat)
  | fetchOk (now staleTime : Nat) (v : T)
  | fetchErr (msg : String)
  | subscribeEv
  | unsubscribeEv (now : Nat)
  | markStaleEv (now : Nat)

/-- One transition of the per-key state machine. -/
def stepEvent (ev : Event T) (s : KeyState T) : KeyState T :=
  match ev with
  | .query now => (queryStep now s).2
  | .fetchOk now staleTime v => (resolveOk now staleTime v s).1
  | .fetchErr msg => resolveErr msg s
  | .subscribeEv => { s with entry := s.entry.map subscribeOp }
  | .unsubscribeEv now => { s with entry := s.entry.map (unsubscribeOp now) }
  | .markStaleEv now => { s with entry := s.entry.map (markStale now) }

/-- Run a sequence of events from a state. -/
def runEvents (evs : List (Event T)) (s : KeyState T) : KeyState T :=
  evs.foldl (fun s ev => stepEvent ev s) s

/-- Run n query calls at the given instant (single-threaded cooperative
scheduling: concurrent calls execute sequentially on the one execution
context while the fetch is outstanding). -/
def runQueries (now : Nat) : Nat → KeyState T → KeyState T
  | 0, s => s
  | n + 1, s => runQueries now n (queryStep now s).2

/-- Modelled from the spec: a delete of identifier i affects the cache
keys detail:i and every list:* key. -/
def affectedByDelete (i : Int) : Key → Bool
  | .detail j => j == i
  | .list _ => true

/-- Modelled from the spec: onMutationSuccess(delete, i) of the
Invalidation Coordinator marks stale every affected key of the store, and
returns those affected keys with subscriberCount > 0, for which
revalidation is triggered immediately; the other affected keys stay
stale, to be revalidated lazily on next access. -/
def onMutationSuccessDelete (now : Nat) (i : Int) (store : Store T) :
    Store T × List Key :=
  (store.map fun p =>
     if affectedByDelete i p.1 then (p.1, markStale now p.2) else p,
   (store.filter fun p =>
      affectedByDelete i p.1 && decide (0 < p.2.subscriberCount)).map
     Prod.fst)

/-- Mutation status of section 4.3. -/
inductive MutStatus where
  | idle
  | pending
  | success
  | error
deriving DecidableEq, Repr

/-- Operation kinds of mutations (the client mutates notes by
deletion). -/
inductive OpKind where
  | deleteNote
deriving DecidableEq, Repr

/-- Modelled from the spec: outcome of a resolved mutation: the resulting
status and error field, whether the caller-supplied onSuccess callback
was invoked, and the signal sent to the Invalidation Coordinator
(operation kind and mutated identifier). -/
structure MutationOutcome where
  status : MutStatus
  error : Option String
  onSuccessInvoked : Bool
  coordinatorSignal : Option (OpKind × Int)
deriving DecidableEq, Repr

/-- Modelled from the spec: mutate transitions idle to pending to success
or error; on success it invokes onSuccess and signals the Invalidation
Coordinator with the operation kind and identifier; on failure the
rejection is captured in the error field, onSuccess is not invoked and
nothing is signalled. -/
def mutateResolve (op : OpKind) (entityId : Int)
    (result : Except String Unit) : MutationOutcome :=
  match result with
  | .ok _ => ⟨.success, none, true, some (op, entityId)⟩
  | .error msg => ⟨.error, some msg, false, none⟩

/-- Console message logged by handleDelete of the note-detail page when
the delete mutation rejects (src/unnamed/part_001). -/
def handleDeleteLog (result : Except String Unit) : Option String :=
  match result with
  | .ok _ => none
  | .error _ => some "Failed to delete note:"

/-- Modelled from the spec (Mutation Execution Unit and Invalidation
Coordinator) combined with handleDelete of the note-detail page in
src/unnamed/part_001: the delete flow resolves the mutation; on success
the Invalidation Coordinator updates the store; on failure the store is
left untouched (no optimistic removal) and the failure is logged. -/
def deleteNoteFlow (now : Nat) (i : Int) (result : Except String Unit)
    (store : Store T) : Store T × MutationOutcome × Option String :=
  (match result with
   | .ok _ => (onMutationSuccessDelete now i store).1
   | .error _ => store,
   mutateResolve .deleteNote i result,
   handleDeleteLog result)

/-- One route of the client router: its path pattern and whether its only
child is an index route (src/apps/frontend/src/routes.tsx). -/
structure Route where
  path : String
  hasIndexChild : Bool
deriving DecidableEq, Repr

/-- Route definitions of src/apps/frontend/src/routes.tsx: the layout
route at the root path with an index child rendering the home page, and
the three authentication pages. -/
def routes : List Route :=
  [⟨"/", true⟩, ⟨"/log-in", false⟩, ⟨"/sign-up", false⟩,
   ⟨"/forgot-password", false⟩]

/-- Matching for the concrete routes of this router: every path pattern
is a static path with no dynamic segment, and the only child route is an
index route rendering at the parent path, so a route matches exactly the
pathname equal to its own path. -/
def routeMatches (r : Route) (pathname : String) : Bool :=
  pathname == r.path

/-- Navigation target of the note-detail page's onSuccess callback after
deletion (src/unnamed/part_001). -/
def noteDetailOnSuccessTarget : String := "/notes"

/-- Navigation target of the note-detail page's back button
(src/unnamed/part_001). -/
def noteDetailBackTarget : String := "/notes"

/-- Numeric value of a list of decimal digit characters, most significant
first. -/
def digitsToNat (ds : List Char) : Nat :=
  ds.foldl (fun acc c => acc * 10 + (c.toNat - 48)) 0

/-- JavaScript parseInt(s, 10): leading whitespace is skipped, an
optional sign is read, then the longest prefix of decimal digits gives
the value; the result is NaN, here none, when no digit follows. -/
def parseIntBase10 (s : String) : Option Int :=
  let cs := s.data.dropWhile Char.isWhitespace
  let signAndRest : Int × List Char :=
    match cs with
    | '-' :: t => (-1, t)
    | '+' :: t => (1, t)
    | t => (1, t)
  let ds := signAndRest.2.takeWhile Char.isDigit
  if ds.isEmpty then none
  else some (signAndRest.1 * (digitsToNat ds : Int))

/-- Identifier queried by the note-detail page, from the line
noteId = id ? parseInt(id, 10) : 0 of src/unnamed/part_001, with
JavaScript truthiness on the route parameter (undefined and the empty
string are falsy) and NaN modelled as none. -/
def noteId (id : Option String) : Option Int :=
  match id with
  | none => some 0
  | some s => if s = "" then some 0 else parseIntBase10 s

/-- Invariant of the Query Execution Unit: the number of in-flight
fetches for a key is one exactly when the entry is loading, and zero
otherwise; in particular at most one fetch is in flight per key. -/
def inFlightInvariant (s : KeyState T) : Prop :=
  s.inFlight = if stateStatus s = .loading then 1 else 0

/-- Data-presence invariant of a cache entry: data is present whenever
the status is success. -/
def DataInv (e : CacheEntry T) : Prop :=
  e.status = .success → e.data.isSome = true

/-- Data-presence invariant of a key state: every present entry satisfies
DataInv. -/
def KDataInv (s : KeyState T) : Prop :=
  ∀ e, s.entry = some e → DataInv e

/-- Sample cache entry with one subscriber, holding data 7, fetched at 0
and stale at 10. -/
def sampleEntry : CacheEntry Nat := ⟨some 7, .success, none, 0, 10, 0, 1⟩

/-- Sample cache entry with no subscriber, holding data 2. -/
def sampleEntryNoSubs : CacheEntry Nat := ⟨some 2, .success, none, 0, 10, 0, 0⟩

/-- Sample store holding a detail entry for note 5 with one subscriber
and a list entry with no subscriber. -/
def sampleStore : Store Nat :=
  [(.detail 5, sampleEntry), (.list "all", sampleEntryNoSubs)]

/-- C5: markError on an entry that previously held data with
status=success sets status=error, preserves the prior data unchanged
(stale-while-error) and records the error. -/
theorem markError_stale_while_error (e : CacheEntry T) (d : T) (msg : String)
    (hst : e.status = .success) (hd : e.data = some d) :
    (markError msg e).status = .error ∧ (markError msg e).data = some d ∧
    (markError msg e).error = some msg := by
  refine ⟨rfl, ?_, rfl⟩
  simpa [markError] using hd

theorem markError_stale_while_error_w :
    (markError "boom" sampleEntry).status = .error ∧
    (markError "boom" sampleEntry).data = some 7 ∧
    (markError "boom" sampleEntry).error = some "boom" :=
  markError_stale_while_error sampleEntry 7 "boom" rfl rfl

/-- C6 counterexample: after put followed by markError the entry keeps
its data while its status is error, so data present iff status=success
fails after an Entity Cache Store operation. -/
theorem data_iff_success_violated :
    ¬(((markError "boom" (put 0 100 (7 : Nat) (newEntry 0))).data.isSome
        = true) ↔
      (markError "boom" (put 0 100 (7 : Nat) (newEntry 0))).status
        = .success) := by
  decide

/-- C7: a successfully resolving mutation transitions to status success,
invokes the caller-supplied onSuccess callback, and signals the
Invalidation Coordinator with the operation kind and the mutated
identifier; the note-detail page's onSuccess callback navigates to
/notes after deletion. -/
theorem mutation_success_contract (i : Int) :
    (mutateResolve .deleteNote i (.ok ())).status = .success ∧
    (mutateResolve .deleteNote i (.ok ())).onSuccessInvoked = true ∧
    (mutateResolve .deleteNote i (.ok ())).coordinatorSignal =
      some (.deleteNote, i) ∧
    noteDetailOnSuccessTarget = "/notes" :=
  ⟨rfl, rfl, rfl, rfl⟩

/-- C8: a failed delete mutation is captured into the mutation's error
field and surfaced as status=error rather than thrown, onSuccess is not
invoked and the coordinator is not signalled, the failure is logged, and
the store is left untouched so the entity remains un-deleted. -/
theorem mutation_failure_contract (now : Nat) (i : Int) (msg : String)
    (store : Store T) :
    (deleteNoteFlow now i (.error msg) store).1 = store ∧
    (deleteNoteFlow now i (.error msg) store).2.1.status = .error ∧
    (deleteNoteFlow now i (.error msg) store).2.1.error = some msg ∧
    (deleteNoteFlow now i (.error msg) store).2.1.onSuccessInvoked
      = false ∧
    (deleteNoteFlow now i (.error msg) store).2.1.coordinatorSignal
      = none ∧
    (deleteNoteFlow now i (.error msg) store).2.2 =
      some "Failed to delete note:" :=
  ⟨rfl, rfl, rfl, rfl, rfl, rfl⟩

theorem mutation_failure_contract_w :
    (deleteNoteFlow 0 5 (.error "net") sampleStore).1 = sampleStore ∧
    (deleteNoteFlow 0 5 (.error "net") sampleStore).2.1.status
      = .error ∧
    (deleteNoteFlow 0 5 (.error "net") sampleStore).2.1.error
      = some "net" ∧
    (deleteNoteFlow 0 5 (.error "net") sampleStore).2.1.onSuccessInvoked
      = false ∧
    (deleteNoteFlow 0 5 (.error "net") sampleStore).2.1.coordinatorSignal
      = none ∧
    (deleteNoteFlow 0 5 (.error "net") sampleStore).2.2 =
      some "Failed to delete note:" :=
  mutation_failure_contract 0 5 "net" sampleStore

/-- C9: the client router defines exactly the four paths slash, log-in,
sign-up and forgot-password, and no route matches /notes, the target of
the note-detail page's post-deletion navigation and back button. -/
theorem router_has_no_notes_route :
    routes.map Route.path =
      ["/", "/log-in", "/sign-up", "/forgot-password"] ∧
    (routes.all fun r => !(routeMatches r noteDetailOnSuccessTarget))
      = true ∧
    (routes.all fun r => !(routeMatches r noteDetailBackTarget))
      = true := by
  decide

/-- C10 counterexample: for the present route parameter consisting of the
empty string the page queries identifier 0, not the parseInt result NaN,
so a present id is not always parsed with parseInt. -/
theorem noteId_present_not_parsed :
    ¬(noteId (some "") = parseIntBase10 "") := by
  decide

/-- C10 amended: when the route parameter is absent or the empty string
the note-detail page queries identifier 0; when it is a non-empty string
it is parsed with JavaScript parseInt base 10, so a non-numeric id
yields NaN; the parameter is never rejected or validated before
querying. -/
theorem noteId_contract (s : String) (hs : s ≠ "") :
    noteId none = some 0 ∧ noteId (some "") = some 0 ∧
    noteId (some s) = parseIntBase10 s ∧ parseIntBase10 "abc" = none := by
  refine ⟨rfl, rfl, ?_, by decide⟩
  simp [noteId, hs]

theorem noteId_contract_w : noteId (some "12") = parseIntBase10 "12" :=
  (noteId_contract "12" (by decide)).2.2.1

/-- C2: a query on an entry with status=success always serves the cached
value synchronously; while fresh it leaves the state untouched and
issues no network call; once stale it issues exactly one background
revalidation, transitioning the entry to loading while retaining the
cached data. -/
theorem query_success_contract (now : Nat) (s : KeyState T)
    (e : CacheEntry T) (v : T) (he : s.entry = some e)
    (hst : e.status = .success) (hd : e.data = some v) :
    (queryStep now s).1 = .served (some v) ∧
    (now < e.staleAt → (queryStep now s).2 = s) ∧
    (e.staleAt ≤ now →
      (queryStep now s).2.networkCalls = s.networkCalls + 1 ∧
      ∃ e2, (queryStep now s).2.entry = some e2 ∧
        e2.status = .loading ∧ e2.data = some v) := by
  obtain ⟨d, st, er, fa, sa, la, sc⟩ := e
  obtain rfl : st = Status.success := hst
  obtain rfl : d = some v := hd
  by_cases h : now < sa
  · refine ⟨?_, fun _ => ?_, fun hle => absurd h (by simp at hle; omega)⟩ <;>
      simp [queryStep, he, h]
  · refine ⟨?_, fun hlt => absurd hlt h, fun _ => ?_⟩
    · simp [queryStep, he, h]
    · refine ⟨?_, ⟨some v, Status.loading, er, fa, sa, la, sc⟩, ?_, rfl, rfl⟩ <;>
        simp [queryStep, he, h]

theorem query_success_contract_w :
    (queryStep 5 (⟨some sampleEntry, 0, 0, 0⟩ : KeyState Nat)).1 =
      .served (some 7) ∧
    (5 < sampleEntry.staleAt →
      (queryStep 5 (⟨some sampleEntry, 0, 0, 0⟩ : KeyState Nat)).2 =
        ⟨some sampleEntry, 0, 0, 0⟩) ∧
    (sampleEntry.staleAt ≤ 5 →
      (queryStep 5 (⟨some sampleEntry, 0, 0, 0⟩ : KeyState Nat)).2.networkCalls
        = 0 + 1 ∧
      ∃ e2,
        (queryStep 5 (⟨some sampleEntry, 0, 0, 0⟩ : KeyState Nat)).2.entry
          = some e2 ∧ e2.status = .loading ∧ e2.data = some 7) :=
  query_success_contract 5 ⟨some sampleEntry, 0, 0, 0⟩ sampleEntry 7
    rfl rfl rfl

/-- C3: a successful delete mutation on identifier i affects exactly the
keys detail:i and the list keys; every affected entry of the store is
marked stale, staleAt becoming now with data untouched, unaffected
entries are untouched, and revalidation is triggered exactly for the
affected keys with subscriberCount over zero, the rest staying stale for
lazy revalidation. -/
theorem invalidation_on_delete (now : Nat) (i : Int) (store : Store T) :
    (∀ k : Key, affectedByDelete i k = true ↔
      (k = .detail i ∨ ∃ sc, k = .list sc)) ∧
    (∀ e : CacheEntry T, (markStale now e).staleAt = now ∧
      (markStale now e).data = e.data ∧
      (markStale now e).status = e.status) ∧
    (∀ p : Key × CacheEntry T, p ∈ store →
      (affectedByDelete i p.1 = true →
        (p.1, markStale now p.2) ∈ (onMutationSuccessDelete now i store).1) ∧
      (affectedByDelete i p.1 = false →
        p ∈ (onMutationSuccessDelete now i store).1)) ∧
    (∀ k : Key, k ∈ (onMutationSuccessDelete now i store).2 ↔
      ∃ e, (k, e) ∈ store ∧ affectedByDelete i k = true ∧
        0 < e.subscriberCount) := by
  refine ⟨?_, fun e => ⟨rfl, rfl, rfl⟩, ?_, ?_⟩
  · intro k
    cases k <;> simp [affectedByDelete]
  · intro p hp
    constructor <;> intro ha
    · have h := List.mem_map_of_mem
        (fun p : Key × CacheEntry T =>
          if affectedByDelete i p.1 then (p.1, markStale now p.2) else p) hp
      simpa [onMutationSuccessDelete, ha] using h
    · have h := List.mem_map_of_mem
        (fun p : Key × CacheEntry T =>
          if affectedByDelete i p.1 then (p.1, markStale now p.2) else p) hp
      simpa [onMutationSuccessDelete, ha] using h
  · intro k
    simp only [onMutationSuccessDelete, List.mem_map, List.mem_filter,
      Bool.and_eq_true, decide_eq_true_eq]
    constructor
    · rintro ⟨p, ⟨hp, ha, hsub⟩, rfl⟩
      exact ⟨p.2, hp, ha, hsub⟩
    · rintro ⟨e, hmem, ha, hsub⟩
      exact ⟨(k, e), ⟨hmem, ha, hsub⟩, rfl⟩

theorem invalidation_on_delete_w :
    Key.detail 5 ∈ (onMutationSuccessDelete 3 5 sampleStore).2 :=
  ((invalidation_on_delete 3 5 sampleStore).2.2.2 (Key.detail 5)).mpr
    ⟨sampleEntry, by decide, by decide, by decide⟩

/-- C4: collectGarbage removes exactly the entries with zero subscribers
whose expiry has passed: an entry is kept iff it is in the store and not
expired-and-unsubscribed, a subscribed entry is never removed, an
unsubscribed entry is retained while now is before expiresAt, and an
access before expiry refreshes lastAccessAt, postponing expiresAt. -/
theorem gc_boundary (now now2 gcTime : Nat) (store : Store T) (k : Key)
    (e : CacheEntry T) :
    ((k, e) ∈ collectGarbage now gcTime store ↔
      (k, e) ∈ store ∧
        ¬(e.subscriberCount = 0 ∧ expiresAt gcTime e ≤ now)) ∧
    (0 < e.subscriberCount → (k, e) ∈ store →
      (k, e) ∈ collectGarbage now gcTime store) ∧
    (e.subscriberCount = 0 → now < expiresAt gcTime e → (k, e) ∈ store →
      (k, e) ∈ collectGarbage now gcTime store) ∧
    (e.lastAccessAt ≤ now2 →
      (touch now2 e).lastAccessAt = now2 ∧
      expiresAt gcTime e ≤ expiresAt gcTime (touch now2 e)) := by
  have hmem : (k, e) ∈ collectGarbage now gcTime store ↔
      (k, e) ∈ store ∧
        ¬(e.subscriberCount = 0 ∧ expiresAt gcTime e ≤ now) := by
    simp [collectGarbage, List.mem_filter, Bool.not_eq_true',
      Bool.and_eq_false_iff, beq_iff_eq, decide_eq_true_eq,
      decide_eq_false_iff_not, not_and, beq_eq_false_iff_ne]
    tauto
  refine ⟨hmem, ?_, ?_, ?_⟩
  · intro hsub hin
    exact hmem.mpr ⟨hin, fun hc => by omega⟩
  · intro hsub hexp hin
    exact hmem.mpr ⟨hin, fun hc => by omega⟩
  · intro hle
    refine ⟨rfl, ?_⟩
    simp only [expiresAt, touch]
    omega

theorem gc_boundary_w :
    (Key.detail 5, sampleEntry) ∈ collectGarbage 100 20 sampleStore :=
  (gc_boundary 100 0 20 sampleStore (Key.detail 5) sampleEntry).2.1
    (by decide) (by decide)

theorem queryStep_loading (now : Nat) (s : KeyState T) (e : CacheEntry T)
    (he : s.entry = some e) (hl : e.status = .loading) :
    queryStep now s = (.attached, { s with waiters := s.waiters + 1 }) := by
  obtain ⟨d, st, er, fa, sa, la, sc⟩ := e
  obtain rfl : st = Status.loading := hl
  simp [queryStep, he]

theorem runQueries_loading (now : Nat) (n : Nat) (s : KeyState T)
    (e : CacheEntry T) (he : s.entry = some e)
    (hl : e.status = .loading) :
    runQueries now n s = { s with waiters := s.waiters + n } := by
  induction n generalizing s with
  | zero => rfl
  | succ m ih =>
    have h1 : runQueries now (m + 1) s
        = runQueries now m (queryStep now s).2 := rfl
    have h2 : (queryStep now s).2 = { s with waiters := s.waiters + 1 } := by
      rw [queryStep_loading now s e he hl]
    rw [h1, h2, ih { s with waiters := s.waiters + 1 } he]
    have h3 : s.waiters + 1 + m = s.waiters + (m + 1) := by omega
    dsimp only
    rw [h3]

theorem inFlightInvariant_step (ev : Event T) (s : KeyState T)
    (h : inFlightInvariant s) : inFlightInvariant (stepEvent ev s) := by
  obtain ⟨entry, inF, w, nc⟩ := s
  cases entry with
  | none =>
    cases ev <;>
      simp_all [inFlightInvariant, stateStatus, stepEvent, queryStep,
        resolveOk, resolveErr]
  | some e =>
    obtain ⟨d, st, er, fa, sa, la, sc⟩ := e
    cases ev <;> cases st <;>
      simp_all [inFlightInvariant, stateStatus, stepEvent, queryStep,
        resolveOk, resolveErr, put, markError, subscribeOp,
        unsubscribeOp, markStale] <;>
      (try split) <;> simp_all

theorem inFlightInvariant_run (evs : List (Event T)) (s : KeyState T)
    (h : inFlightInvariant s) : inFlightInvariant (runEvents evs s) := by
  induction evs generalizing s with
  | nil => exact h
  | cons ev evs ih => exact ih (stepEvent ev s) (inFlightInvariant_step ev s h)

/-- C1: from an absent cache entry, n at least 2 concurrent query calls
for the key issue exactly one network call, and the fetch resolution
delivers the identical value to all n attached callers; moreover after
any sequence of events from the initial state at most one fetch is in
flight for the key. -/
theorem query_dedup (n : Nat) (hn : 2 ≤ n) (now now2 staleTime : Nat)
    (v : T) (evs : List (Event T)) :
    (runQueries now n (initKeyState T)).networkCalls = 1 ∧
    (resolveOk now2 staleTime v (runQueries now n (initKeyState T))).2 =
      List.replicate n v ∧
    (runEvents evs (initKeyState T)).inFlight ≤ 1 := by
  obtain ⟨m, rfl⟩ : ∃ m, n = m + 1 := ⟨n - 1, by omega⟩
  have h0 : runQueries now (m + 1) (initKeyState T)
      = runQueries now m (queryStep now (initKeyState T)).2 := rfl
  have h1 : (queryStep now (initKeyState T)).2
      = (⟨some ⟨none, .loading, none, now, now, now, 0⟩, 1, 1, 1⟩ :
          KeyState T) := rfl
  have h2 : runQueries now (m + 1) (initKeyState T)
      = (⟨some ⟨none, .loading, none, now, now, now, 0⟩, 1, 1 + m, 1⟩ :
          KeyState T) := by
    rw [h0, h1,
      runQueries_loading now m _ ⟨none, .loading, none, now, now, now, 0⟩
        rfl rfl]
  refine ⟨by rw [h2], ?_, ?_⟩
  · rw [h2]
    show List.replicate (1 + m) v = List.replicate (m + 1) v
    rw [Nat.add_comm]
  · have hinv := inFlightInvariant_run evs (initKeyState T)
      (by simp [inFlightInvariant, stateStatus, initKeyState])
    rw [hinv]
    split <;> omega

theorem query_dedup_w :
    (runQueries 0 2 (initKeyState Nat)).networkCalls = 1 ∧
    (resolveOk 3 5 (7 : Nat) (runQueries 0 2 (initKeyState Nat))).2 =
      List.replicate 2 7 ∧
    (runEvents [Event.query 0, Event.fetchOk 1 5 (7 : Nat)]
      (initKeyState Nat)).inFlight ≤ 1 :=
  query_dedup 2 (by decide) 0 3 5 7 [Event.query 0, Event.fetchOk 1 5 7]

theorem DataInv_of_eq (e e' : CacheEntry T) (hse : e'.status = e.status)
    (hde : e'.data = e.data) (h : DataInv e) : DataInv e' := by
  intro hst
  rw [hde]
  exact h (hse ▸ hst)

theorem KDataInv_step (ev : Event T) (s : KeyState T) (h : KDataInv s) :
    KDataInv (stepEvent ev s) := by
  obtain ⟨entry, inF, w, nc⟩ := s
  cases entry with
  | none =>
    cases ev <;> intro e' he' <;>
      simp only [stepEvent, queryStep, resolveOk, resolveErr,
        Option.map_none', Option.some.injEq, reduceCtorEq] at he' <;>
      first
        | exact he'.elim
        | (rw [← he']; exact fun hst => nomatch hst)
  | some e =>
    have hde := h e rfl
    obtain ⟨d, st, er, fa, sa, la, sc⟩ := e
    cases ev with
    | query now =>
      cases st <;> intro e' he' <;>
        simp only [stepEvent, queryStep, Option.some.injEq] at he'
      case idle => rw [← he']; exact fun hst => nomatch hst
      case loading => rw [← he']; exact fun hst => nomatch hst
      case success =>
        split at he' <;> simp only [Option.some.injEq] at he' <;>
          rw [← he']
        · exact hde
        · exact fun hst => nomatch hst
      case error => rw [← he']; exact fun hst => nomatch hst
    | fetchOk now2 staleTime2 v =>
      cases st <;> intro e' he' <;>
        simp only [stepEvent, resolveOk, Option.some.injEq] at he' <;>
        rw [← he']
      case idle => exact hde
      case loading => exact fun _ => rfl
      case success => exact hde
      case error => exact hde
    | fetchErr msg =>
      cases st <;> intro e' he' <;>
        simp only [stepEvent, resolveErr, Option.some.injEq] at he' <;>
        rw [← he']
      case idle => exact hde
      case loading => exact fun hst => nomatch hst
      case success => exact hde
      case error => exact hde
    | subscribeEv =>
      intro e' he'
      simp only [stepEvent, Option.map_some', Option.some.injEq] at he'
      rw [← he']
      exact DataInv_of_eq _ _ rfl rfl hde
    | unsubscribeEv now2 =>
      intro e' he'
      simp only [stepEvent, Option.map_some', Option.some.injEq] at he'
      rw [← he']
      exact DataInv_of_eq _ _ rfl rfl hde
    | markStaleEv now2 =>
      intro e' he'
      simp only [stepEvent, Option.map_some', Option.some.injEq] at he'
      rw [← he']
      exact DataInv_of_eq _ _ rfl rfl hde

/-- C6 amended: data is present whenever the status is success: the
invariant holds of a fresh entry and is preserved by put, markError,
markStale, subscribe, unsubscribe, every step of the Query Execution
Unit and garbage collection; the converse fails, since markError and
revalidation deliberately retain prior data under status error or
loading (stale-while-error). -/
theorem data_present_when_success (now staleTime gcTime : Nat) (d : T)
    (msg : String) (e : CacheEntry T) (he : DataInv e) (s : KeyState T)
    (hs : KDataInv s) (ev : Event T) (store : Store T)
    (hstore : ∀ p ∈ store, DataInv p.2) :
    DataInv (newEntry now : CacheEntry T) ∧
    DataInv (put now staleTime d e) ∧
    DataInv (markError msg e) ∧
    DataInv (markStale now e) ∧
    DataInv (subscribeOp e) ∧
    DataInv (unsubscribeOp now e) ∧
    KDataInv (stepEvent ev s) ∧
    (∀ p ∈ collectGarbage now gcTime store, DataInv p.2) := by
  refine ⟨?_, ?_, ?_, ?_, ?_, ?_, KDataInv_step ev s hs, ?_⟩
  · exact fun hst => nomatch hst
  · exact fun _ => rfl
  · exact fun hst => nomatch hst
  · exact fun hst => he hst
  · exact fun hst => he hst
  · exact fun hst => he hst
  · intro p hp
    exact hstore p (List.mem_of_mem_filter hp)

theorem data_present_when_success_w :
    DataInv (markError "x" sampleEntry) :=
  (data_present_when_success 0 5 9 (3 : Nat) "x" sampleEntry
    (fun _ => rfl) (initKeyState Nat) (fun e hx => nomatch hx)
    (Event.query 0) sampleStore
    (by
      intro p hp
      simp only [sampleStore, List.mem_cons, List.not_mem_nil,
        or_false] at hp
      rcases hp with rfl | rfl
      · exact fun _ => rfl
      · exact fun _ => rfl)).2.2.1

end YoutubeNotes
